import Mathlib

/-
Verification of the ChromeDriver DevTools client multiplexer
(chrome/test/chromedriver/chrome/devtools_client_impl.cc).

The development shallowly embeds the parts of DevToolsClientImpl that the
claims concern: the message codec (internal::ParseInspectorMessage,
internal::ParseInspectorError), the BiDi id framing (PostBidiCommandInternal),
the pending-response table and its state transitions (SendCommandInternal,
ProcessEvent, ProcessCommandResponse), the listener notification queues
(EnsureListenersNotifiedOfConnect / Event / CommandResponse), and the routing
and error-propagation logic of HandleMessage.

Conventions of the embedding:
  - base::Value JSON values are the inductive `Json` below; base::JSONReader
    (an external library) is abstracted as a parameter
    `jsonRead : String -> Option Json` (`none` models "could not parse as a
    JSON object"); base::JSONWriter is the executable serializer `Json.write`.
  - C++ `int` command ids and inspector codes are `Int`; C++ integer division
    truncates toward zero, which is `Int.tdiv`; the one id computation whose
    32-bit arithmetic can overflow (PostBidiCommandInternal) applies an
    explicit two's-complement wrap, `wrap32`.
  - Listeners (DevToolsEventListener, an external collaborator reached through
    virtual calls) are abstracted as a type `L` together with a result
    function `run : L -> Status`; the JavaScript dialog manager collaborator
    is abstracted as `Option (Status × String)` (owner present or not, and the
    GetDialogMessage result status plus the returned dialog text).
  - Sub-operations that re-enter the message pump (the synthetic
    Inspector.enable round trip inside ProcessEvent, the individual
    ProcessNextMessage calls inside SendCommandInternal's wait loop) are
    abstracted as explicit parameters describing their observable effect on
    the state, so theorems quantify over every possible behaviour of the
    nested pump.
  - ResponseInfo's command_timeout field (wall-clock time) is not modelled.
  - ResetListeners (which clears the whole pending table on reconnect) is not
    a pump step: ConnectIfNecessary refuses to run while the pump is nested
    (stack_count_ > 0), so it does not participate in claim C1's
    interleavings.
-/

namespace DevToolsModel

/-! ## Status codes (chrome/status.h, restricted to the codes this file uses) -/

inductive StatusCode where
  | kOk
  | kTimeout
  | kDisconnected
  | kTabCrashed
  | kTargetDetached
  | kUnexpectedAlertOpen
  | kUnknownCommand
  | kNoSuchFrame
  | kNoSuchWindow
  | kInvalidArgument
  | kUnknownError
  deriving DecidableEq, Repr

structure Status where
  code : StatusCode
  message : String := ""
  deriving DecidableEq, Repr

def Status.IsError (s : Status) : Bool :=
  match s.code with
  | StatusCode.kOk => false
  | _ => true

def Status.IsOk (s : Status) : Bool :=
  match s.code with
  | StatusCode.kOk => true
  | _ => false

def okStatus : Status := ⟨StatusCode.kOk, ""⟩

/-! ## JSON values (base::Value) and the JSON writer (base::JSONWriter) -/

mutual
inductive Json where
  | null
  | bool (b : Bool)
  | num (n : Int)
  | str (s : String)
  | arr (xs : JsonList)
  | dict (kvs : JsonDict)
inductive JsonList where
  | nil
  | cons (hd : Json) (tl : JsonList)
inductive JsonDict where
  | nil
  | cons (k : String) (v : Json) (tl : JsonDict)
end

/-- Minimal JSON string escaping (quotation mark and backslash). -/
def jsonEscapeChar (c : Char) : String :=
  if c = '"' then "\\\"" else if c = '\\' then "\\\\" else String.singleton c

def jsonEscape (s : String) : String :=
  String.join (s.toList.map jsonEscapeChar)

mutual
def Json.write : Json → String
  | .null => "null"
  | .bool true => "true"
  | .bool false => "false"
  | .num n => toString n
  | .str s => "\"" ++ jsonEscape s ++ "\""
  | .arr xs => "[" ++ JsonList.write xs ++ "]"
  | .dict kvs => "\x7b" ++ JsonDict.write kvs ++ "\x7d"
def JsonList.write : JsonList → String
  | .nil => ""
  | .cons x .nil => Json.write x
  | .cons x (JsonList.cons y tl) =>
      Json.write x ++ "," ++ JsonList.write (JsonList.cons y tl)
def JsonDict.write : JsonDict → String
  | .nil => ""
  | .cons k v .nil => "\"" ++ jsonEscape k ++ "\":" ++ Json.write v
  | .cons k v (JsonDict.cons k2 v2 tl) =>
      "\"" ++ jsonEscape k ++ "\":" ++ Json.write v ++ ","
        ++ JsonDict.write (JsonDict.cons k2 v2 tl)
end

/-- base::Value::Dict::Find: first binding of a key. -/
def jsonFind : JsonDict → String → Option Json
  | JsonDict.nil, _ => none
  | JsonDict.cons k v tl, key => if k = key then some v else jsonFind tl key

/-- base::Value::Dict::FindString / DictionaryValue::GetString for a plain key:
the value must exist and be a string. -/
def findString (d : JsonDict) (key : String) : Option String :=
  match jsonFind d key with
  | some (Json.str s) => some s
  | _ => none

/-- base::Value::Dict::FindInt / FindIntKey / FindIntPath for a plain key:
the value must exist and be stored as an integer. -/
def findInt (d : JsonDict) (key : String) : Option Int :=
  match jsonFind d key with
  | some (Json.num n) => some n
  | _ => none

/-- DictionaryValue::GetDictionary for a plain key: the value must exist and
be a dictionary. -/
def findDict (d : JsonDict) (key : String) : Option JsonDict :=
  match jsonFind d key with
  | some (Json.dict kvs) => some kvs
  | _ => none

/-- base::Value::Dict::Set: replace the first binding of the key, or append. -/
def dictSet : JsonDict → String → Json → JsonDict
  | JsonDict.nil, key, v => JsonDict.cons key v JsonDict.nil
  | JsonDict.cons k w tl, key, v =>
      if k = key then JsonDict.cons key v tl
      else JsonDict.cons k w (dictSet tl key v)

/-! ## Constants from devtools_client_impl.cc's anonymous namespace -/

def kInspectorDefaultContextError : String := "Cannot find default execution context"

def kInspectorContextError : String := "Cannot find context with specified id"

def kInspectorInvalidURL : String := "Cannot navigate to invalid URL"

def kInspectorInsecureContext : String := "Permission can't be granted in current context."

def kInspectorOpaqueOrigins : String := "Permission can't be granted to opaque origins."

def kInspectorPushPermissionError : String :=
  "Push Permission without userVisibleOnly:true isn't supported"

def kInspectorNoSuchFrameError : String := "Frame with the given id was not found."

def kNoTargetWithGivenIdError : String := "No target with given id found"

def kSessionNotFoundInspectorCode : Int := -32001

def kCdpMethodNotFoundCode : Int := -32601

def kInvalidParamsInspectorCode : Int := -32602

def kReservedChannelCount : Int := 1

def kUserChannelCount : Int := 1

def kMaxChannelCount : Int := kReservedChannelCount + kUserChannelCount

/-! ## internal::ParseInspectorError -/

/-- internal::ParseInspectorError. `jsonRead` abstracts base::JSONReader;
`errorJson` is the serialized inspector error envelope. -/
def ParseInspectorError (jsonRead : String → Option Json) (errorJson : String) : Status :=
  match jsonRead errorJson with
  | some (Json.dict errorDict) =>
    let maybeCode := findInt errorDict "code"
    let maybeMessage := findString errorDict "message"
    if maybeCode = some kCdpMethodNotFoundCode then
      ⟨StatusCode.kUnknownCommand, maybeMessage.getD "UnknownCommand"⟩
    else if maybeCode = some kSessionNotFoundInspectorCode then
      ⟨StatusCode.kNoSuchFrame, maybeMessage.getD "inspector detached"⟩
    else
      match maybeMessage with
      | some errorMessage =>
        if errorMessage = kInspectorDefaultContextError
            ∨ errorMessage = kInspectorContextError then
          ⟨StatusCode.kNoSuchWindow, ""⟩
        else if errorMessage = kInspectorInvalidURL then
          ⟨StatusCode.kInvalidArgument, ""⟩
        else if errorMessage = kInspectorInsecureContext then
          ⟨StatusCode.kInvalidArgument, "feature cannot be used in insecure context"⟩
        else if errorMessage = kInspectorPushPermissionError
            ∨ errorMessage = kInspectorOpaqueOrigins then
          ⟨StatusCode.kInvalidArgument, errorMessage⟩
        else if errorMessage = kInspectorNoSuchFrameError then
          ⟨StatusCode.kNoSuchFrame, errorMessage⟩
        else if findInt errorDict "code" = some kInvalidParamsInspectorCode then
          if errorMessage = kNoTargetWithGivenIdError then
            ⟨StatusCode.kNoSuchWindow, errorMessage⟩
          else
            ⟨StatusCode.kInvalidArgument, errorMessage⟩
        else
          ⟨StatusCode.kUnknownError, "unhandled inspector error: " ++ errorJson⟩
      | none =>
        ⟨StatusCode.kUnknownError, "unhandled inspector error: " ++ errorJson⟩
  | _ => ⟨StatusCode.kUnknownError, "inspector error with no error message"⟩

/-! ## internal::ParseInspectorMessage -/

/-- internal::InspectorCommandResponse. In the C++ struct `error` is the
"error" sub-object re-serialized by base::JSONWriter, and `result` is an owned
dictionary. -/
structure InspectorCommandResponse where
  id : Int
  result : Option JsonDict
  error : String

def emptyCmdResponse : InspectorCommandResponse := ⟨0, none, ""⟩

/-- internal::InspectorEvent. -/
structure InspectorEvent where
  method : String
  params : JsonDict

/-- The out-parameters of internal::ParseInspectorMessage on success:
the extracted session id plus the tagged event / command-response. -/
inductive ParsedMessage where
  | event (sessionId : String) (ev : InspectorEvent)
  | response (sessionId : String) (resp : InspectorCommandResponse)

def ParsedMessage.sid : ParsedMessage → String
  | ParsedMessage.event s _ => s
  | ParsedMessage.response s _ => s

/-- internal::ParseInspectorMessage. Returns `none` exactly when the C++
function returns false. `jsonRead` abstracts base::JSONReader (used both on
the frame and, for BiDi messages, on the `payload` string); the
`expectedId` parameter is kept from the C++ signature although, as there,
it is not consulted. -/
def ParseInspectorMessage (jsonRead : String → Option Json) (message : String)
    (_expectedId : Int) : Option ParsedMessage :=
  match jsonRead message with
  | some (Json.dict messageDict) =>
    let sessionId := (findString messageDict "sessionId").getD ""
    match jsonFind messageDict "id" with
    | none =>
      match findString messageDict "method" with
      | none => none
      | some method =>
        match findDict messageDict "params" with
        | some params =>
          -- IsBidiMessage: only Runtime.bindingCalled with name=sendBidiResponse
          if method = "Runtime.bindingCalled" then
            match findString params "name" with
            | none => none  -- "name is missing in the Runtime.bindingCalled params"
            | some nm =>
              if nm = "sendBidiResponse" then
                -- DeserializePayload + id rewrite + in-place payload replacement
                match findString params "payload" with
                | none => none  -- "payload is missing in the ... params"
                | some payloadStr =>
                  match jsonRead payloadStr with
                  | some (Json.dict payload) =>
                    let payload2 :=
                      match findInt payload "id" with
                      | some cmdId =>
                          dictSet payload "id" (Json.num (Int.tdiv cmdId kMaxChannelCount))
                      | none => payload
                    some (ParsedMessage.event sessionId
                      ⟨method, dictSet params "payload" (Json.dict payload2)⟩)
                  | _ => none  -- "unable to deserialize the BiDi payload"
              else
                some (ParsedMessage.event sessionId ⟨method, params⟩)
          else
            some (ParsedMessage.event sessionId ⟨method, params⟩)
        | none =>
          some (ParsedMessage.event sessionId ⟨method, JsonDict.nil⟩)
    | some (Json.num n) =>
      match findDict messageDict "result" with
      | some unscopedResult =>
        some (ParsedMessage.response sessionId ⟨n, some unscopedResult, ""⟩)
      | none =>
        match findDict messageDict "error" with
        | some unscopedError =>
          some (ParsedMessage.response sessionId
            ⟨n, none, Json.write (Json.dict unscopedError)⟩)
        | none =>
          some (ParsedMessage.response sessionId ⟨n, some JsonDict.nil, ""⟩)
    | some _ => none
  | _ => none

/-! ## PostBidiCommand / PostBidiCommandInternal -/

/-- Two's-complement wrap to a C++ 32-bit signed `int`: the constants are
2^31 and 2^32. Signed overflow is formally undefined behaviour in C++; this
models the conventional wrap-around that the compiled code performs. -/
def wrap32 (n : Int) : Int := (n + 2147483648) % 4294967296 - 2147483648

/-- DevToolsClientImpl::PostBidiCommandInternal. Returns the Runtime.evaluate
expression put on the wire together with the mutated command dictionary.
`int cmd_id = *maybe_cmd_id * kMaxChannelCount + bidi_channel` is 32-bit
arithmetic in the source (the id comes from base::Value::Dict::FindInt), so
the computation is wrapped with `wrap32`. -/
def PostBidiCommandInternal (bidiChannel : Int) (command : JsonDict) :
    Except Status (String × JsonDict) :=
  match findInt command "id" with
  | none => Except.error ⟨StatusCode.kInvalidArgument, "BiDi command id not found"⟩
  | some maybeCmdId =>
    if bidiChannel < 0 ∨ kMaxChannelCount ≤ bidiChannel then
      Except.error ⟨StatusCode.kUnknownError, "BiDi channel id is out of range"⟩
    else
      let cmdId := wrap32 (maybeCmdId * kMaxChannelCount + bidiChannel)
      let command2 := dictSet command "id" (Json.num cmdId)
      let json := Json.write (Json.dict command2)
      let arg := Json.write (Json.str json)
      Except.ok ("onBidiMessage(" ++ arg ++ ")", command2)

/-- DevToolsClientImpl::PostBidiCommand: always posts on the first user
channel, whose index equals kReservedChannelCount. -/
def PostBidiCommand (command : JsonDict) : Except Status (String × JsonDict) :=
  PostBidiCommandInternal kReservedChannelCount command

/-! ## Response slots and the pending-response table

DevToolsClientImpl::ResponseInfo is a reference-counted record shared between
the sending caller and the delivery site; `response_info_map_` maps command
ids to these records. -/

inductive ResponseState where
  | kWaiting
  | kBlocked
  | kIgnored
  | kReceived
  deriving DecidableEq, Repr

structure ResponseInfo where
  state : ResponseState
  method : String
  response : InspectorCommandResponse

/-- `response_info_map_`, as a function from command id to slot. -/
def PendingMap : Type := Int → Option ResponseInfo

/-- The slot-state view of the pending table at one id (`none` = absent). -/
def viewAt (m : PendingMap) (id : Int) : Option ResponseState :=
  (m id).map ResponseInfo.state

/-- SendCommandInternal, expect_response branch: `response_info_map_[command_id]
= MakeRefCounted<ResponseInfo>(method)` — a fresh slot in state kWaiting. -/
def sendCreateSlot (m : PendingMap) (commandId : Int) (method : String) : PendingMap :=
  fun id => if id = commandId then some ⟨ResponseState.kWaiting, method, emptyCmdResponse⟩
            else m id

/-- ProcessEvent's dialog-detection loop over `response_info_map_`: every entry
with id ≤ maxId whose state is kWaiting moves to kBlocked; all other entries
are untouched. -/
def markBlocked (m : PendingMap) (maxId : Int) : PendingMap :=
  fun id =>
    match m id with
    | some ri =>
        if id ≤ maxId ∧ ri.state = ResponseState.kWaiting then
          some { ri with state := ResponseState.kBlocked }
        else some ri
    | none => none

/-- SendCommandInternal's wait-exit when the slot is kBlocked:
`response_info->state = kIgnored` (the slot is still in the map). -/
def ignoreBlockedSlot (m : PendingMap) (commandId : Int) : PendingMap :=
  fun id =>
    match m id with
    | some ri =>
        if id = commandId ∧ ri.state = ResponseState.kBlocked then
          some { ri with state := ResponseState.kIgnored }
        else some ri
    | none => none

/-- `response_info_map_.erase(id)`. -/
def eraseSlot (m : PendingMap) (commandId : Int) : PendingMap :=
  fun id => if id = commandId then none else m id

/-- SendCommandInternal's error-exit erase: `if (state == kReceived)
response_info_map_.erase(command_id)`. (By the time a slot object is
kReceived, ProcessCommandResponse has already erased the map entry, so on the
map this is a no-op; it is kept for completeness of the model.) -/
def eraseIfReceived (m : PendingMap) (commandId : Int) : PendingMap :=
  fun id =>
    match m id with
    | some ri =>
        if id = commandId ∧ ri.state = ResponseState.kReceived then none
        else some ri
    | none => none

/-! ## Listener notification queues

`L` abstracts DevToolsEventListener; `run` gives each listener's virtual-call
result for the message currently being delivered. Each function returns the
C++ function's Status together with the queue member's value when it
returns. -/

/-- DevToolsClientImpl::EnsureListenersNotifiedOfConnect. -/
def EnsureListenersNotifiedOfConnect {L : Type} :
    List L → (L → Status) → Status × List L
  | [], _ => (okStatus, [])
  | l :: rest, run =>
    let status := run l
    if status.IsError then (status, rest)
    else EnsureListenersNotifiedOfConnect rest run

/-- DevToolsClientImpl::EnsureListenersNotifiedOfEvent: on a listener error
the queue is cleared before the error propagates. -/
def EnsureListenersNotifiedOfEvent {L : Type} :
    List L → (L → Status) → Status × List L
  | [], _ => (okStatus, [])
  | l :: rest, run =>
    let status := run l
    if status.IsError then (status, [])
    else EnsureListenersNotifiedOfEvent rest run

/-- DevToolsClientImpl::EnsureListenersNotifiedOfCommandResponse: on a
listener error the erroring listener has been popped, but the remaining
queue is left as is. -/
def EnsureListenersNotifiedOfCommandResponse {L : Type} :
    List L → (L → Status) → Status × List L
  | [], _ => (okStatus, [])
  | l :: rest, run =>
    let status := run l
    if status.IsError then (status, rest)
    else EnsureListenersNotifiedOfCommandResponse rest run

/-! ## ProcessCommandResponse -/

/-- DevToolsClientImpl::ProcessCommandResponse. `isRoot` is
`parent_ == nullptr`; `listeners`/`runCmd` abstract the snapshot
`unnotified_cmd_response_listeners_ = listeners_` and each listener's
OnCommandSuccess result. Returns the C++ Status, the pending table after the
call, and the final state of the slot object that was removed (if any) —
observable by the caller holding the shared reference. -/
def ProcessCommandResponse {L : Type} (jsonRead : String → Option Json) (isRoot : Bool)
    (listeners : List L) (runCmd : L → Status)
    (m : PendingMap) (resp : InspectorCommandResponse) :
    Status × PendingMap × Option ResponseInfo :=
  match m resp.id with
  | none =>
    if isRoot = true ∧ resp.result.isNone = true
        ∧ (ParseInspectorError jsonRead resp.error).code = StatusCode.kNoSuchFrame then
      (okStatus, m, none)
    else
      (⟨StatusCode.kUnknownError, "unexpected command response"⟩, m, none)
  | some ri =>
    let ri2 :=
      if ri.state = ResponseState.kIgnored then ri
      else { ri with state := ResponseState.kReceived, response := resp }
    let m2 := eraseSlot m resp.id
    match resp.result with
    | some _ =>
      let status := (EnsureListenersNotifiedOfCommandResponse listeners runCmd).1
      if status.IsError then (status, m2, some ri2)
      else (okStatus, m2, some ri2)
    | none => (okStatus, m2, some ri2)

/-! ## ProcessEvent -/

/-- DevToolsClientImpl::ProcessEvent. `listeners`/`runEvent` abstract the
snapshot `unnotified_event_listeners_ = listeners_` and each listener's
OnEvent result for this event; `nextId` is the root's `next_id_` at the time
of the call (read through NextMessageId as `max_id`); `roundTrip` abstracts
the synthetic `SendCommand("Inspector.enable", ...)` — given the pending
table when the command is issued it yields the table when the nested pump
returns, together with that command's Status. Returns the C++ Status, the
pending table afterwards, and the `crashed_` flag. -/
def ProcessEvent {L : Type} (listeners : List L) (runEvent : L → Status)
    (method : String) (nextId : Int) (roundTrip : PendingMap → PendingMap × Status)
    (m : PendingMap) : Status × PendingMap × Bool :=
  let status := (EnsureListenersNotifiedOfEvent listeners runEvent).1
  if status.IsError then (status, m, false)
  else if method = "Inspector.detached" then
    (⟨StatusCode.kDisconnected, "received Inspector.detached event"⟩, m, false)
  else if method = "Inspector.targetCrashed" then
    (⟨StatusCode.kTabCrashed, ""⟩, m, true)
  else if method = "Page.javascriptDialogOpening" then
    let maxId := nextId
    let rt := roundTrip m
    let enableStatus := rt.2
    let m2 := markBlocked rt.1 maxId
    if enableStatus.IsError then (status, m2, false)
    else (okStatus, m2, false)
  else (okStatus, m, false)

/-! ## HandleMessage

Routing and error propagation. HandleMessage always runs on the root node
(ProcessNextMessage recurses to the root before receiving). Client nodes are
abstracted as `Nat` handles with `0` standing for the root (`this`);
`children` is the root's `children_` map from session id to child handle, and
`dispatchEvent` / `dispatchResponse` give the result of ProcessEvent /
ProcessCommandResponse on the routed node. -/
def HandleMessage (jsonRead : String → Option Json) (message : String)
    (expectedId : Int) (selfSessionId : String) (children : String → Option Nat)
    (dispatchEvent : Nat → InspectorEvent → Status)
    (dispatchResponse : Nat → InspectorCommandResponse → Status)
    (caller : Nat) : Status :=
  match ParseInspectorMessage jsonRead message expectedId with
  | none => ⟨StatusCode.kUnknownError, "bad inspector message: " ++ message⟩
  | some parsed =>
    let client : Option Nat :=
      if parsed.sid = selfSessionId then some 0 else children parsed.sid
    match client with
    | none => okStatus  -- unknown session id: expected noise, silently dropped
    | some c =>
      match parsed with
      | ParsedMessage.event _ ev =>
        let status := dispatchEvent c ev
        if caller = c ∨ c = 0 then status else okStatus
      | ParsedMessage.response _ resp =>
        let status := dispatchResponse c resp
        if caller = c ∨ c = 0 then status else okStatus

/-! ## SendCommandInternal's wait phase

The `while (response_info->state == kWaiting)` loop plus the code after it.
`pumps` abstracts the successive ProcessNextMessage calls: each element is
that call's Status together with the slot object's state when the call
returns; `owner` abstracts the owning WebViewImpl and its JavaScript dialog
manager (GetDialogMessage status and returned dialog text); `resp` is the
slot's stored response at exit. The result is `none` if the supplied pump
trace is exhausted with the slot still kWaiting (the real loop would keep
pumping). -/

inductive WaitExit where
  | errorExit (st : Status)
  | normalExit (st : Status) (finalState : ResponseState)

def SendCommandWaitPhase (jsonRead : String → Option Json)
    (owner : Option (Status × String)) (resp : InspectorCommandResponse)
    (slot : ResponseState) (pumps : List (Status × ResponseState)) :
    Option WaitExit :=
  if slot = ResponseState.kWaiting then
    match pumps with
    | [] => none
    | (st, slot2) :: rest =>
      if st.IsError then some (WaitExit.errorExit st)
      else SendCommandWaitPhase jsonRead owner resp slot2 rest
  else if slot = ResponseState.kBlocked then
    -- response_info->state = kIgnored; then consult the dialog manager
    match owner with
    | some (dialogStatus, alertText) =>
      if dialogStatus.IsOk then
        some (WaitExit.normalExit
          ⟨StatusCode.kUnexpectedAlertOpen, "\x7bAlert text : " ++ alertText ++ "\x7d"⟩
          ResponseState.kIgnored)
      else
        some (WaitExit.normalExit ⟨StatusCode.kUnexpectedAlertOpen, ""⟩
          ResponseState.kIgnored)
    | none =>
      some (WaitExit.normalExit ⟨StatusCode.kUnexpectedAlertOpen, ""⟩
        ResponseState.kIgnored)
  else
    -- CHECK_EQ(response_info->state, kReceived)
    match resp.result with
    | none => some (WaitExit.normalExit (ParseInspectorError jsonRead resp.error) slot)
    | some _ => some (WaitExit.normalExit okStatus slot)

/-- The slot state at the moment the wait loop exits normally (`none` when the
loop exits through a pump error, or when the supplied trace is exhausted). -/
def waitLoopExitState (slot : ResponseState) (pumps : List (Status × ResponseState)) :
    Option ResponseState :=
  if slot = ResponseState.kWaiting then
    match pumps with
    | [] => none
    | (st, slot2) :: rest =>
      if st.IsError then none
      else waitLoopExitState slot2 rest
  else some slot

/-! ## Definitions taken from the claims' words (for refutation and
comparison; these are NOT translations of the source) -/

/-- Modelled from claim C1's words: the only slot-state changes the claim
allows are Waiting→Received, Waiting→Blocked and Blocked→Ignored. -/
inductive SpecClaimedSlotTransition : ResponseState → ResponseState → Prop
  | waitingToReceived :
      SpecClaimedSlotTransition ResponseState.kWaiting ResponseState.kReceived
  | waitingToBlocked :
      SpecClaimedSlotTransition ResponseState.kWaiting ResponseState.kBlocked
  | blockedToIgnored :
      SpecClaimedSlotTransition ResponseState.kBlocked ResponseState.kIgnored

/-- The per-id transitions of the pending table that the AMENDED claim C1
allows (map view; `none` = absent). Receiving a response erases the entry:
in slot-object terms a kWaiting/kBlocked slot removed this way ends in state
kReceived, and a kIgnored slot stays kIgnored (see `claim_C1_amended`'s
final-object conjunct). -/
inductive AmendedSlotStep : Option ResponseState → Option ResponseState → Prop
  | unchanged (s : Option ResponseState) : AmendedSlotStep s s
  | create : AmendedSlotStep none (some ResponseState.kWaiting)
  | block : AmendedSlotStep (some ResponseState.kWaiting) (some ResponseState.kBlocked)
  | unblock : AmendedSlotStep (some ResponseState.kBlocked) (some ResponseState.kIgnored)
  | receiveWaiting : AmendedSlotStep (some ResponseState.kWaiting) none
  | receiveBlocked : AmendedSlotStep (some ResponseState.kBlocked) none
  | receiveIgnored : AmendedSlotStep (some ResponseState.kIgnored) none
  | eraseReceived : AmendedSlotStep (some ResponseState.kReceived) none

/-- Modelled from claim C7's words, read as an ordered case analysis, with
the one amendment the counterexample forces: the bare `-32602 →
InvalidArgument` rule additionally requires a string `message` to be
present. -/
def specErrorCode (maybeCode : Option Int) (maybeMessage : Option String) : StatusCode :=
  if maybeCode = some (-32601) then StatusCode.kUnknownCommand
  else if maybeCode = some (-32001) ∨ maybeMessage = some kInspectorNoSuchFrameError then
    StatusCode.kNoSuchFrame
  else if (maybeMessage = some kInspectorDefaultContextError
        ∨ maybeMessage = some kInspectorContextError)
      ∨ (maybeCode = some (-32602) ∧ maybeMessage = some kNoTargetWithGivenIdError) then
    StatusCode.kNoSuchWindow
  else if (maybeMessage = some kInspectorInvalidURL
        ∨ maybeMessage = some kInspectorInsecureContext
        ∨ maybeMessage = some kInspectorOpaqueOrigins
        ∨ maybeMessage = some kInspectorPushPermissionError)
      ∨ (maybeCode = some (-32602) ∧ maybeMessage.isSome = true) then
    StatusCode.kInvalidArgument
  else StatusCode.kUnknownError

/-! ## Concrete fixtures (collaborator instances and inputs used by the
closed witness / counterexample theorems) -/

/-- A JSON reader that parses nothing. -/
def jrNone : String → Option Json := fun _ => none

/-- A listener-result function where every listener succeeds. -/
def runOkL : Nat → Status := fun _ => okStatus

def emptyPending : PendingMap := fun _ => none

/-- An Inspector.enable round trip that changes nothing and succeeds. -/
def rtIdOk : PendingMap → PendingMap × Status := fun m => (m, okStatus)

/-- An Inspector.enable round trip that changes nothing and fails. -/
def rtFail : PendingMap → PendingMap × Status :=
  fun m => (m, ⟨StatusCode.kUnknownError, "enable failure"⟩)

/-- Two Waiting slots, ids 2 and 5. -/
def mapTwoWaiting : PendingMap :=
  fun id =>
    if id = 2 then some ⟨ResponseState.kWaiting, "a", emptyCmdResponse⟩
    else if id = 5 then some ⟨ResponseState.kWaiting, "b", emptyCmdResponse⟩
    else none

/-- A single Blocked slot at id 5 (a command stalled by a dialog and not yet
unblocked by its caller, e.g. one sent via SendCommandAndIgnoreResponse). -/
def mapBlocked5 : PendingMap :=
  fun id => if id = 5 then some ⟨ResponseState.kBlocked, "cmd", emptyCmdResponse⟩ else none

def respFor5 : InspectorCommandResponse := ⟨5, some JsonDict.nil, ""⟩

def respFor2 : InspectorCommandResponse := ⟨2, some JsonDict.nil, ""⟩

def errJsonNoSuchFrame : String := "\x7b\"code\":-32001\x7d"

def dictNoSuchFrame : JsonDict := JsonDict.cons "code" (Json.num (-32001)) JsonDict.nil

def jrNoSuchFrame : String → Option Json :=
  fun s => if s = errJsonNoSuchFrame then some (Json.dict dictNoSuchFrame) else none

/-- Response to an unknown id, carrying a session-not-found inspector error. -/
def respUnknownId : InspectorCommandResponse := ⟨9, none, errJsonNoSuchFrame⟩

def errJsonBareInvalidParams : String := "\x7b\"code\":-32602\x7d"

def dictBareInvalidParams : JsonDict :=
  JsonDict.cons "code" (Json.num (-32602)) JsonDict.nil

def jrBareInvalidParams : String → Option Json :=
  fun s => if s = errJsonBareInvalidParams then some (Json.dict dictBareInvalidParams) else none

/-- An event frame for session "s1" with method "E" and no params. -/
def kvsEventS1 : JsonDict :=
  JsonDict.cons "sessionId" (Json.str "s1")
    (JsonDict.cons "method" (Json.str "E") JsonDict.nil)

def jrEventS1 : String → Option Json :=
  fun s => if s = "frameS1" then some (Json.dict kvsEventS1) else none

def parsedEventS1 : ParsedMessage := ParsedMessage.event "s1" ⟨"E", JsonDict.nil⟩

def childrenS1 : String → Option Nat := fun s => if s = "s1" then some 2 else none

def dispatchEventFail : Nat → InspectorEvent → Status :=
  fun _ _ => ⟨StatusCode.kUnknownError, "event dispatch failure"⟩

def dispatchResponseOk : Nat → InspectorCommandResponse → Status := fun _ _ => okStatus

/-- Owner present; GetDialogMessage succeeds with text "hi". -/
def ownerHi : Option (Status × String) := some (okStatus, "hi")

/-- Listener 1 fails; all others succeed. -/
def runFailAt1 : Nat → Status :=
  fun l => if l = 1 then ⟨StatusCode.kUnknownError, "listener failure"⟩ else okStatus

/-- A command response frame: sessionId "sess", id 5, with a result object. -/
def kvsRespFrame : JsonDict :=
  JsonDict.cons "sessionId" (Json.str "sess")
    (JsonDict.cons "id" (Json.num 5)
      (JsonDict.cons "result" (Json.dict (JsonDict.cons "ok" (Json.bool true) JsonDict.nil))
        JsonDict.nil))

def jrRespFrame : String → Option Json :=
  fun s => if s = "frame6" then some (Json.dict kvsRespFrame) else none

/-- BiDi outbound command with user id 5. -/
def cmdUser5 : JsonDict := JsonDict.cons "id" (Json.num 5) JsonDict.nil

/-- BiDi outbound command with (negative) user id -3. -/
def cmdUserNeg3 : JsonDict := JsonDict.cons "id" (Json.num (-3)) JsonDict.nil

/-- BiDi outbound command with user id 2^30, whose doubling overflows a
32-bit int. -/
def cmdUserPow30 : JsonDict := JsonDict.cons "id" (Json.num 1073741824) JsonDict.nil

/-- Inbound BiDi payload carrying on-wire id 11 (= 5 * 2 + 1). -/
def payloadWire11 : JsonDict := JsonDict.cons "id" (Json.num 11) JsonDict.nil

/-- Inbound BiDi payload carrying on-wire id -5 (= -3 * 2 + 1). -/
def payloadWireNeg5 : JsonDict := JsonDict.cons "id" (Json.num (-5)) JsonDict.nil

def paramsBidi11 : JsonDict :=
  JsonDict.cons "name" (Json.str "sendBidiResponse")
    (JsonDict.cons "payload" (Json.str "payload11") JsonDict.nil)

def paramsBidiNeg5 : JsonDict :=
  JsonDict.cons "name" (Json.str "sendBidiResponse")
    (JsonDict.cons "payload" (Json.str "payloadNeg5") JsonDict.nil)

def frameBidi11 : JsonDict :=
  JsonDict.cons "method" (Json.str "Runtime.bindingCalled")
    (JsonDict.cons "params" (Json.dict paramsBidi11) JsonDict.nil)

def frameBidiNeg5 : JsonDict :=
  JsonDict.cons "method" (Json.str "Runtime.bindingCalled")
    (JsonDict.cons "params" (Json.dict paramsBidiNeg5) JsonDict.nil)

def jrBidi11 : String → Option Json :=
  fun s =>
    if s = "bidiframe11" then some (Json.dict frameBidi11)
    else if s = "payload11" then some (Json.dict payloadWire11)
    else none

def jrBidiNeg5 : String → Option Json :=
  fun s =>
    if s = "bidiframeNeg5" then some (Json.dict frameBidiNeg5)
    else if s = "payloadNeg5" then some (Json.dict payloadWireNeg5)
    else none

/-! ## Helper lemmas -/

theorem code_eq_ok_of_not_isError (s : Status) (h : s.IsError = false) :
    s.code = StatusCode.kOk := by
  cases hs : s.code <;>
    first
      | rfl
      | (unfold Status.IsError at h; rw [hs] at h; cases h)

theorem processEvent_dialog_pending {L : Type} (listeners : List L)
    (runEvent : L → Status) (nextId : Int)
    (roundTrip : PendingMap → PendingMap × Status) (m : PendingMap)
    (hok : (EnsureListenersNotifiedOfEvent listeners runEvent).1.IsError = false) :
    (ProcessEvent listeners runEvent "Page.javascriptDialogOpening" nextId roundTrip m).2.1
      = markBlocked (roundTrip m).1 nextId := by
  unfold ProcessEvent
  simp only [hok, Bool.false_eq_true, if_false, String.reduceEq, ite_false]
  cases h2 : (roundTrip m).2.IsError <;> simp [h2]

/-- C3: after Page.javascriptDialogOpening is processed (all listeners
succeeding), the pending table equals the table after the synthetic
Inspector.enable round trip with every Waiting slot of id ≤ max_id (the
next_id recorded before the round trip) turned Blocked, and every slot with
id > max_id untouched. -/
theorem claim_C3 (listeners : List Nat) (runEvent : Nat → Status) (nextId : Int)
    (roundTrip : PendingMap → PendingMap × Status) (m : PendingMap) (id : Int)
    (hok : (EnsureListenersNotifiedOfEvent listeners runEvent).1.IsError = false) :
    ((ProcessEvent listeners runEvent "Page.javascriptDialogOpening" nextId roundTrip m).2.1
        = markBlocked (roundTrip m).1 nextId)
    ∧ (∀ ri, id ≤ nextId → (roundTrip m).1 id = some ri →
        ri.state = ResponseState.kWaiting →
        (ProcessEvent listeners runEvent "Page.javascriptDialogOpening" nextId roundTrip m).2.1 id
          = some { ri with state := ResponseState.kBlocked })
    ∧ (nextId < id →
        (ProcessEvent listeners runEvent "Page.javascriptDialogOpening" nextId roundTrip m).2.1 id
          = (roundTrip m).1 id) := by
  have hpe := processEvent_dialog_pending listeners runEvent nextId roundTrip m hok
  refine ⟨hpe, ?_, ?_⟩
  · intro ri hle hsome hw
    rw [hpe]
    unfold markBlocked
    rw [hsome]
    simp [hle, hw]
  · intro hgt
    rw [hpe]
    unfold markBlocked
    cases hsome : (roundTrip m).1 id with
    | none => rfl
    | some ri =>
      have : ¬(id ≤ nextId ∧ ri.state = ResponseState.kWaiting) := by
        rintro ⟨h1, -⟩; omega
      simp [this]

theorem claim_C3_witness :
    (ProcessEvent ([] : List Nat) runOkL "Page.javascriptDialogOpening" 3 rtIdOk
        mapTwoWaiting).2.1 2 = some ⟨ResponseState.kBlocked, "a", emptyCmdResponse⟩
    ∧ (ProcessEvent ([] : List Nat) runOkL "Page.javascriptDialogOpening" 3 rtIdOk
        mapTwoWaiting).2.1 5 = some ⟨ResponseState.kWaiting, "b", emptyCmdResponse⟩ := by
  have h2 := claim_C3 [] runOkL 3 rtIdOk mapTwoWaiting 2 rfl
  have h5 := claim_C3 [] runOkL 3 rtIdOk mapTwoWaiting 5 rfl
  refine ⟨?_, ?_⟩
  · have := h2.2.1 ⟨ResponseState.kWaiting, "a", emptyCmdResponse⟩ (by decide) rfl rfl
    simpa using this
  · have := h5.2.2 (by decide)
    simpa using this

/-- C10: if the listeners all succeeded but the synthetic Inspector.enable
round trip fails, ProcessEvent still marks the stalled Waiting slots Blocked
and returns the leftover (Ok) listener-notification status — the round-trip
error is invisible to the pump's caller. -/
theorem claim_C10 (listeners : List Nat) (runEvent : Nat → Status) (nextId : Int)
    (roundTrip : PendingMap → PendingMap × Status) (m : PendingMap)
    (hok : (EnsureListenersNotifiedOfEvent listeners runEvent).1.IsError = false)
    (hfail : (roundTrip m).2.IsError = true) :
    ((ProcessEvent listeners runEvent "Page.javascriptDialogOpening" nextId roundTrip m).1
        = (EnsureListenersNotifiedOfEvent listeners runEvent).1)
    ∧ (ProcessEvent listeners runEvent "Page.javascriptDialogOpening" nextId roundTrip m).1.code
        = StatusCode.kOk
    ∧ (ProcessEvent listeners runEvent "Page.javascriptDialogOpening" nextId roundTrip m).2.1
        = markBlocked (roundTrip m).1 nextId := by
  have hst : (ProcessEvent listeners runEvent "Page.javascriptDialogOpening" nextId roundTrip m).1
      = (EnsureListenersNotifiedOfEvent listeners runEvent).1 := by
    unfold ProcessEvent
    simp only [hok, hfail, Bool.false_eq_true, if_false, String.reduceEq, ite_false]
    simp
  exact ⟨hst, by rw [hst]; exact code_eq_ok_of_not_isError _ hok,
    processEvent_dialog_pending listeners runEvent nextId roundTrip m hok⟩

theorem claim_C10_witness :
    ((ProcessEvent ([] : List Nat) runOkL "Page.javascriptDialogOpening" 3 rtFail
        mapTwoWaiting).1 = okStatus)
    ∧ (ProcessEvent ([] : List Nat) runOkL "Page.javascriptDialogOpening" 3 rtFail
        mapTwoWaiting).2.1 2 = some ⟨ResponseState.kBlocked, "a", emptyCmdResponse⟩ := by
  have h := claim_C10 [] runOkL 3 rtFail mapTwoWaiting rfl rfl
  exact ⟨h.1, by rw [h.2.2]; rfl⟩

theorem processCommandResponse_pending {L : Type} (jsonRead : String → Option Json)
    (isRoot : Bool) (listeners : List L) (runCmd : L → Status) (m : PendingMap)
    (resp : InspectorCommandResponse) :
    (ProcessCommandResponse jsonRead isRoot listeners runCmd m resp).2.1
      = match m resp.id with
        | some _ => eraseSlot m resp.id
        | none => m := by
  unfold ProcessCommandResponse
  cases h : m resp.id with
  | none => simp only []; split <;> rfl
  | some ri =>
    simp only []
    cases hr : resp.result with
    | none => rfl
    | some r => simp only []; split <;> rfl

theorem processCommandResponse_final {L : Type} (jsonRead : String → Option Json)
    (isRoot : Bool) (listeners : List L) (runCmd : L → Status) (m : PendingMap)
    (resp : InspectorCommandResponse) (ri : ResponseInfo) (h : m resp.id = some ri) :
    (ProcessCommandResponse jsonRead isRoot listeners runCmd m resp).2.2
      = some (if ri.state = ResponseState.kIgnored then ri
              else { ri with state := ResponseState.kReceived, response := resp }) := by
  unfold ProcessCommandResponse
  rw [h]
  simp only []
  cases hr : resp.result with
  | none => rfl
  | some r => simp only []; split <;> rfl

/-- C5: when a command response arrives whose id has no entry in the node's
pending table, the table is unchanged; the call returns Ok exactly when the
node is the root and the response is an error whose inspector error maps to
NoSuchFrame, and otherwise returns
`unknown error: unexpected command response`. -/
theorem claim_C5 (jsonRead : String → Option Json) (isRoot : Bool)
    (listeners : List Nat) (runCmd : Nat → Status) (m : PendingMap)
    (resp : InspectorCommandResponse) (habsent : m resp.id = none) :
    ((ProcessCommandResponse jsonRead isRoot listeners runCmd m resp).2.1 = m)
    ∧ ((isRoot = true ∧ resp.result = none
          ∧ (ParseInspectorError jsonRead resp.error).code = StatusCode.kNoSuchFrame) →
        (ProcessCommandResponse jsonRead isRoot listeners runCmd m resp).1 = okStatus)
    ∧ (¬(isRoot = true ∧ resp.result = none
          ∧ (ParseInspectorError jsonRead resp.error).code = StatusCode.kNoSuchFrame) →
        (ProcessCommandResponse jsonRead isRoot listeners runCmd m resp).1
          = ⟨StatusCode.kUnknownError, "unexpected command response"⟩) := by
  refine ⟨?_, ?_, ?_⟩
  · rw [processCommandResponse_pending, habsent]
  · rintro ⟨h1, h2, h3⟩
    unfold ProcessCommandResponse
    rw [habsent]
    simp [h1, h2, h3]
  · intro hn
    unfold ProcessCommandResponse
    rw [habsent]
    simp only []
    split
    · rename_i hc
      exact absurd ⟨hc.1, Option.isNone_iff_eq_none.mp hc.2.1, hc.2.2⟩ hn
    · rfl

theorem claim_C5_witness :
    ((ProcessCommandResponse jrNoSuchFrame true ([] : List Nat) runOkL emptyPending
        respUnknownId).2.1 = emptyPending)
    ∧ (ProcessCommandResponse jrNoSuchFrame true ([] : List Nat) runOkL emptyPending
        respUnknownId).1 = okStatus
    ∧ (ProcessCommandResponse jrNone false ([] : List Nat) runOkL emptyPending
        respFor5).1 = ⟨StatusCode.kUnknownError, "unexpected command response"⟩ := by
  have h1 := claim_C5 jrNoSuchFrame true [] runOkL emptyPending respUnknownId rfl
  have h2 := claim_C5 jrNone false [] runOkL emptyPending respFor5 rfl
  exact ⟨h1.1, h1.2.1 ⟨rfl, rfl, rfl⟩, h2.2.2 (by simp)⟩

/-- C8 (corrected): when a listener fails during a delivery, the event drain
clears the remaining queue before propagating the error, but the connect and
command-response drains pop only the erroring listener and keep the rest of
their queues. The first error encountered is the one propagated. -/
theorem notifyEvent_first_error (L : Type) (q1 q2 : List L) (l : L) (run : L → Status)
    (hq1 : ∀ x ∈ q1, (run x).IsError = false) (hl : (run l).IsError = true) :
    EnsureListenersNotifiedOfEvent (q1 ++ l :: q2) run = (run l, []) := by
  induction q1 with
  | nil =>
    simp only [List.nil_append]
    unfold EnsureListenersNotifiedOfEvent
    simp [hl]
  | cons x xs ih =>
    have hx : (run x).IsError = false := hq1 x (by simp)
    have ih2 := ih (fun y hy => hq1 y (by simp [hy]))
    simp only [List.cons_append]
    unfold EnsureListenersNotifiedOfEvent
    simp [hx, ih2]

theorem notifyConnect_first_error (L : Type) (q1 q2 : List L) (l : L) (run : L → Status)
    (hq1 : ∀ x ∈ q1, (run x).IsError = false) (hl : (run l).IsError = true) :
    EnsureListenersNotifiedOfConnect (q1 ++ l :: q2) run = (run l, q2) := by
  induction q1 with
  | nil =>
    simp only [List.nil_append]
    unfold EnsureListenersNotifiedOfConnect
    simp [hl]
  | cons x xs ih =>
    have hx : (run x).IsError = false := hq1 x (by simp)
    have ih2 := ih (fun y hy => hq1 y (by simp [hy]))
    simp only [List.cons_append]
    unfold EnsureListenersNotifiedOfConnect
    simp [hx, ih2]

theorem notifyCmdResponse_first_error (L : Type) (q1 q2 : List L) (l : L) (run : L → Status)
    (hq1 : ∀ x ∈ q1, (run x).IsError = false) (hl : (run l).IsError = true) :
    EnsureListenersNotifiedOfCommandResponse (q1 ++ l :: q2) run = (run l, q2) := by
  induction q1 with
  | nil =>
    simp only [List.nil_append]
    unfold EnsureListenersNotifiedOfCommandResponse
    simp [hl]
  | cons x xs ih =>
    have hx : (run x).IsError = false := hq1 x (by simp)
    have ih2 := ih (fun y hy => hq1 y (by simp [hy]))
    simp only [List.cons_append]
    unfold EnsureListenersNotifiedOfCommandResponse
    simp [hx, ih2]

/-- C8 (corrected): when a listener fails during a delivery, the event drain
clears the remaining queue before propagating the error, but the connect and
command-response drains pop only the erroring listener and keep the rest of
their queues. The first error encountered is the one propagated. -/
theorem claim_C8_amended (L : Type) (q1 q2 : List L) (l : L) (run : L → Status)
    (hq1 : ∀ x ∈ q1, (run x).IsError = false) (hl : (run l).IsError = true) :
    EnsureListenersNotifiedOfEvent (q1 ++ l :: q2) run = (run l, [])
    ∧ EnsureListenersNotifiedOfConnect (q1 ++ l :: q2) run = (run l, q2)
    ∧ EnsureListenersNotifiedOfCommandResponse (q1 ++ l :: q2) run = (run l, q2) :=
  ⟨notifyEvent_first_error L q1 q2 l run hq1 hl,
   notifyConnect_first_error L q1 q2 l run hq1 hl,
   notifyCmdResponse_first_error L q1 q2 l run hq1 hl⟩

/-- C8 counterexample: the command-response drain does NOT discard the
remaining queue on a listener error — with listeners [1, 2] where listener 1
fails, listener 2 stays queued. -/
theorem claim_C8_counterexample :
    EnsureListenersNotifiedOfCommandResponse [1, 2] runFailAt1
      = (⟨StatusCode.kUnknownError, "listener failure"⟩, [2])
    ∧ ([2] : List Nat) ≠ [] := by
  exact ⟨rfl, by decide⟩

theorem claim_C8_witness :
    EnsureListenersNotifiedOfEvent [0, 1, 2] runFailAt1
      = (⟨StatusCode.kUnknownError, "listener failure"⟩, [])
    ∧ EnsureListenersNotifiedOfConnect [0, 1, 2] runFailAt1
      = (⟨StatusCode.kUnknownError, "listener failure"⟩, [2])
    ∧ EnsureListenersNotifiedOfCommandResponse [0, 1, 2] runFailAt1
      = (⟨StatusCode.kUnknownError, "listener failure"⟩, [2]) := by
  have h := claim_C8_amended Nat [0] [2] 1 runFailAt1 (by decide) rfl
  simpa using h

theorem string_append_assoc (a b c : String) : a ++ b ++ c = a ++ (b ++ c) := by
  apply congrArg String.mk
  simp [String.data_append]

theorem waitPhase_blocked_exit (jsonRead : String → Option Json)
    (owner : Option (Status × String)) (resp : InspectorCommandResponse)
    (pumps : List (Status × ResponseState)) :
    ∃ st, SendCommandWaitPhase jsonRead owner resp ResponseState.kBlocked pumps
            = some (WaitExit.normalExit st ResponseState.kIgnored)
      ∧ st.code = StatusCode.kUnexpectedAlertOpen
      ∧ (∀ dialogStatus alertText, owner = some (dialogStatus, alertText) →
          dialogStatus.IsOk = true → ∃ a b, st.message = a ++ (alertText ++ b)) := by
  unfold SendCommandWaitPhase
  rcases owner with _ | ⟨ds, tx⟩
  · refine ⟨⟨StatusCode.kUnexpectedAlertOpen, ""⟩, by simp, rfl, ?_⟩
    intro ds2 tx2 heq
    cases heq
  · by_cases hd : ds.IsOk = true
    · refine ⟨⟨StatusCode.kUnexpectedAlertOpen, "\x7bAlert text : " ++ tx ++ "\x7d"⟩,
        by simp [hd], rfl, ?_⟩
      intro ds2 tx2 heq _
      simp only [Option.some.injEq, Prod.mk.injEq] at heq
      obtain ⟨rfl, rfl⟩ := heq
      exact ⟨"\x7bAlert text : ", "\x7d", string_append_assoc _ _ _⟩
    · refine ⟨⟨StatusCode.kUnexpectedAlertOpen, ""⟩, by simp [hd], rfl, ?_⟩
      intro ds2 tx2 heq hok
      simp only [Option.some.injEq, Prod.mk.injEq] at heq
      obtain ⟨rfl, rfl⟩ := heq
      exact absurd hok hd

/-- C2: if the wait loop of a response-waiting send exits with the slot in
state kBlocked, the slot is set to kIgnored and the call returns
kUnexpectedAlertOpen; when an owner is present and its JavaScript dialog
manager returns Ok with a dialog text, the status message contains that
text. -/
theorem claim_C2 (jsonRead : String → Option Json) (owner : Option (Status × String))
    (resp : InspectorCommandResponse) (slot : ResponseState)
    (pumps : List (Status × ResponseState))
    (hexit : waitLoopExitState slot pumps = some ResponseState.kBlocked) :
    ∃ st, SendCommandWaitPhase jsonRead owner resp slot pumps
            = some (WaitExit.normalExit st ResponseState.kIgnored)
      ∧ st.code = StatusCode.kUnexpectedAlertOpen
      ∧ (∀ dialogStatus alertText, owner = some (dialogStatus, alertText) →
          dialogStatus.IsOk = true → ∃ a b, st.message = a ++ (alertText ++ b)) := by
  induction pumps generalizing slot with
  | nil =>
    have hb : slot = ResponseState.kBlocked := by
      unfold waitLoopExitState at hexit
      by_cases hw : slot = ResponseState.kWaiting
      · simp [hw] at hexit
      · simpa [hw] using hexit
    subst hb
    exact waitPhase_blocked_exit jsonRead owner resp []
  | cons p rest ih =>
    obtain ⟨st0, slot2⟩ := p
    by_cases hw : slot = ResponseState.kWaiting
    · subst hw
      unfold waitLoopExitState at hexit
      simp only [reduceIte] at hexit
      by_cases he : st0.IsError = true
      · simp [he] at hexit
      · simp only [he, Bool.false_eq_true, if_false] at hexit
        have h2 := ih slot2 hexit
        unfold SendCommandWaitPhase
        simpa [he] using h2
    · have hb : slot = ResponseState.kBlocked := by
        unfold waitLoopExitState at hexit
        simpa [hw] using hexit
      subst hb
      exact waitPhase_blocked_exit jsonRead owner resp ((st0, slot2) :: rest)

theorem claim_C2_witness :
    SendCommandWaitPhase jrNone ownerHi emptyCmdResponse ResponseState.kBlocked []
      = some (WaitExit.normalExit
          ⟨StatusCode.kUnexpectedAlertOpen, "\x7bAlert text : hi\x7d"⟩
          ResponseState.kIgnored)
    ∧ waitLoopExitState ResponseState.kBlocked [] = some ResponseState.kBlocked := by
  obtain ⟨st, h1, h2, h3⟩ :=
    claim_C2 jrNone ownerHi emptyCmdResponse ResponseState.kBlocked [] rfl
  have heval : SendCommandWaitPhase jrNone ownerHi emptyCmdResponse ResponseState.kBlocked []
      = some (WaitExit.normalExit
          ⟨StatusCode.kUnexpectedAlertOpen, "\x7bAlert text : hi\x7d"⟩
          ResponseState.kIgnored) := rfl
  have hst := h1.symm.trans heval
  injection hst with hst2
  injection hst2 with hst3 hst4
  subst hst3
  exact ⟨h1, rfl⟩

/-- C4: an error produced by dispatching a routed message surfaces to the
pump's caller exactly when the routed node is the caller's node or the root
itself; errors from an unrelated child session are replaced by Ok. -/
theorem claim_C4 (jsonRead : String → Option Json) (message : String) (expectedId : Int)
    (selfSessionId : String) (children : String → Option Nat)
    (dispatchEvent : Nat → InspectorEvent → Status)
    (dispatchResponse : Nat → InspectorCommandResponse → Status)
    (caller c : Nat) (parsed : ParsedMessage) (dispatched : Status)
    (hparse : ParseInspectorMessage jsonRead message expectedId = some parsed)
    (hroute : (if parsed.sid = selfSessionId then some 0 else children parsed.sid) = some c)
    (hdisp : (match parsed with
              | ParsedMessage.event _ ev => dispatchEvent c ev
              | ParsedMessage.response _ resp => dispatchResponse c resp) = dispatched)
    (herr : dispatched.IsError = true) :
    ((caller = c ∨ c = 0) →
      HandleMessage jsonRead message expectedId selfSessionId children dispatchEvent
        dispatchResponse caller = dispatched)
    ∧ (¬(caller = c ∨ c = 0) →
      HandleMessage jsonRead message expectedId selfSessionId children dispatchEvent
          dispatchResponse caller = okStatus
        ∧ HandleMessage jsonRead message expectedId selfSessionId children dispatchEvent
            dispatchResponse caller ≠ dispatched) := by
  have hne : okStatus ≠ dispatched := by
    intro he
    rw [← he] at herr
    simp [okStatus, Status.IsError] at herr
  unfold HandleMessage
  rw [hparse]
  cases parsed with
  | event sid ev =>
    simp only [ParsedMessage.sid] at hroute
    simp only [ParsedMessage.sid, hroute]
    simp only at hdisp
    rw [hdisp]
    constructor
    · intro h; simp [h]
    · intro h; simp [h]; exact hne
  | response sid resp =>
    simp only [ParsedMessage.sid] at hroute
    simp only [ParsedMessage.sid, hroute]
    simp only at hdisp
    rw [hdisp]
    constructor
    · intro h; simp [h]
    · intro h; simp [h]; exact hne

theorem claim_C4_witness :
    (HandleMessage jrEventS1 "frameS1" (-1) "" childrenS1 dispatchEventFail
        dispatchResponseOk 2 = ⟨StatusCode.kUnknownError, "event dispatch failure"⟩)
    ∧ HandleMessage jrEventS1 "frameS1" (-1) "" childrenS1 dispatchEventFail
        dispatchResponseOk 7 = okStatus := by
  have hsame := claim_C4 jrEventS1 "frameS1" (-1) "" childrenS1 dispatchEventFail
    dispatchResponseOk 2 2 parsedEventS1
    ⟨StatusCode.kUnknownError, "event dispatch failure"⟩ rfl rfl rfl rfl
  have hother := claim_C4 jrEventS1 "frameS1" (-1) "" childrenS1 dispatchEventFail
    dispatchResponseOk 7 2 parsedEventS1
    ⟨StatusCode.kUnknownError, "event dispatch failure"⟩ rfl rfl rfl rfl
  exact ⟨hsame.1 (Or.inl rfl), (hother.2 (by decide)).1⟩

/-- C1 counterexample: ProcessCommandResponse on a slot that is still
kBlocked (its caller has not yet unblocked it, or it was sent without a
waiting caller) erases the slot and moves the shared slot object to
kReceived — the transition Blocked→Received, which the claim's automaton
(`absent → Waiting → (Received | Blocked → Ignored) → absent`) does not
contain. -/
theorem claim_C1_counterexample :
    mapBlocked5 5 = some ⟨ResponseState.kBlocked, "cmd", emptyCmdResponse⟩
    ∧ (ProcessCommandResponse jrNone true ([] : List Nat) runOkL mapBlocked5 respFor5).2.2
        = some ⟨ResponseState.kReceived, "cmd", respFor5⟩
    ∧ (ProcessCommandResponse jrNone true ([] : List Nat) runOkL mapBlocked5 respFor5).2.1 5
        = none
    ∧ ¬ SpecClaimedSlotTransition ResponseState.kBlocked ResponseState.kReceived := by
  refine ⟨rfl, rfl, rfl, ?_⟩
  intro h
  cases h

/-- C1 (corrected): over the pending table, a single pump-visible operation
(slot creation by send, dialog blocking, caller unblocking, response
arrival, error-exit erasure) changes each id's slot only along
`absent → Waiting → (Received | Blocked → (Ignored | Received)) → absent`:
in addition to the claimed transitions, a kBlocked slot whose response
arrives is erased with final object state kReceived. A slot never re-enters
kWaiting. -/
theorem claim_C1_amended (m : PendingMap) (cid maxId id : Int) (mth : String)
    (resp : InspectorCommandResponse) (jsonRead : String → Option Json)
    (isRoot : Bool) (listeners : List Nat) (runCmd : Nat → Status) :
    (m cid = none → viewAt (sendCreateSlot m cid mth) cid = some ResponseState.kWaiting)
    ∧ (id ≠ cid → sendCreateSlot m cid mth id = m id)
    ∧ AmendedSlotStep (viewAt m id) (viewAt (markBlocked m maxId) id)
    ∧ AmendedSlotStep (viewAt m id) (viewAt (ignoreBlockedSlot m cid) id)
    ∧ AmendedSlotStep (viewAt m id) (viewAt (eraseIfReceived m cid) id)
    ∧ AmendedSlotStep (viewAt m id)
        (viewAt (ProcessCommandResponse jsonRead isRoot listeners runCmd m resp).2.1 id)
    ∧ (∀ ri, m resp.id = some ri →
        (ProcessCommandResponse jsonRead isRoot listeners runCmd m resp).2.2
          = some (if ri.state = ResponseState.kIgnored then ri
                  else { ri with state := ResponseState.kReceived, response := resp }))
    ∧ (viewAt (markBlocked m maxId) id = some ResponseState.kWaiting →
        viewAt m id = some ResponseState.kWaiting)
    ∧ (viewAt (ignoreBlockedSlot m cid) id = some ResponseState.kWaiting →
        viewAt m id = some ResponseState.kWaiting)
    ∧ (viewAt (eraseIfReceived m cid) id = some ResponseState.kWaiting →
        viewAt m id = some ResponseState.kWaiting)
    ∧ (viewAt (ProcessCommandResponse jsonRead isRoot listeners runCmd m resp).2.1 id
          = some ResponseState.kWaiting →
        viewAt m id = some ResponseState.kWaiting) := by
  have hpcr : (ProcessCommandResponse jsonRead isRoot listeners runCmd m resp).2.1
      = match m resp.id with
        | some _ => eraseSlot m resp.id
        | none => m :=
    processCommandResponse_pending jsonRead isRoot listeners runCmd m resp
  refine ⟨?_, ?_, ?_, ?_, ?_, ?_, ?_, ?_, ?_, ?_, ?_⟩
  · intro h
    unfold viewAt sendCreateSlot
    simp
  · intro h
    unfold sendCreateSlot
    simp [h]
  · unfold viewAt markBlocked
    cases h : m id with
    | none => exact AmendedSlotStep.unchanged none
    | some ri =>
      by_cases hc : id ≤ maxId ∧ ri.state = ResponseState.kWaiting
      · simp only [if_pos hc, Option.map_some']
        exact hc.2 ▸ AmendedSlotStep.block
      · simp only [if_neg hc]
        exact AmendedSlotStep.unchanged _
  · unfold viewAt ignoreBlockedSlot
    cases h : m id with
    | none => exact AmendedSlotStep.unchanged none
    | some ri =>
      by_cases hc : id = cid ∧ ri.state = ResponseState.kBlocked
      · simp only [if_pos hc, Option.map_some']
        exact hc.2 ▸ AmendedSlotStep.unblock
      · simp only [if_neg hc]
        exact AmendedSlotStep.unchanged _
  · unfold viewAt eraseIfReceived
    cases h : m id with
    | none => exact AmendedSlotStep.unchanged none
    | some ri =>
      by_cases hc : id = cid ∧ ri.state = ResponseState.kReceived
      · simp only [if_pos hc, Option.map_none', Option.map_some']
        exact hc.2 ▸ AmendedSlotStep.eraseReceived
      · simp only [if_neg hc]
        exact AmendedSlotStep.unchanged _
  · rw [hpcr]
    cases h : m resp.id with
    | none => exact AmendedSlotStep.unchanged _
    | some ri =>
      unfold viewAt eraseSlot
      by_cases hc : id = resp.id
      · subst hc
        simp only [if_pos rfl, Option.map_none', h, Option.map_some']
        cases hs : ri.state with
        | kWaiting => exact AmendedSlotStep.receiveWaiting
        | kBlocked => exact AmendedSlotStep.receiveBlocked
        | kIgnored => exact AmendedSlotStep.receiveIgnored
        | kReceived => exact AmendedSlotStep.eraseReceived
      · simp only [if_neg hc]
        exact AmendedSlotStep.unchanged _
  · intro ri h
    exact processCommandResponse_final jsonRead isRoot listeners runCmd m resp ri h
  · unfold viewAt markBlocked
    cases h : m id with
    | none => intro h2; exact h2
    | some ri =>
      by_cases hc : id ≤ maxId ∧ ri.state = ResponseState.kWaiting
      · simp only [if_pos hc, Option.map_some']
        intro h2
        cases h2
      · simp only [if_neg hc, Option.map_some']
        intro h2
        exact h2
  · unfold viewAt ignoreBlockedSlot
    cases h : m id with
    | none => intro h2; exact h2
    | some ri =>
      by_cases hc : id = cid ∧ ri.state = ResponseState.kBlocked
      · simp only [if_pos hc, Option.map_some']
        intro h2
        cases h2
      · simp only [if_neg hc, Option.map_some']
        intro h2
        exact h2
  · unfold viewAt eraseIfReceived
    cases h : m id with
    | none => intro h2; exact h2
    | some ri =>
      by_cases hc : id = cid ∧ ri.state = ResponseState.kReceived
      · simp only [if_pos hc]
        intro h2
        cases h2
      · simp only [if_neg hc, Option.map_some']
        intro h2
        exact h2
  · rw [hpcr]
    cases h : m resp.id with
    | none => intro h2; exact h2
    | some ri =>
      unfold viewAt eraseSlot
      by_cases hc : id = resp.id
      · subst hc
        simp only [if_pos rfl, Option.map_none']
        intro h2
        cases h2
      · simp only [if_neg hc]
        intro h2
        exact h2

theorem claim_C1_witness :
    viewAt (sendCreateSlot mapTwoWaiting 7 "Page.navigate") 7 = some ResponseState.kWaiting
    ∧ (ProcessCommandResponse jrNone true ([] : List Nat) runOkL mapTwoWaiting respFor2).2.2
        = some ⟨ResponseState.kReceived, "a", respFor2⟩
    ∧ AmendedSlotStep (viewAt mapTwoWaiting 2)
        (viewAt (markBlocked mapTwoWaiting 3) 2) := by
  have h := claim_C1_amended mapTwoWaiting 7 3 2 "Page.navigate" respFor2 jrNone true [] runOkL
  refine ⟨h.1 rfl, ?_, h.2.2.1⟩
  have h7 := h.2.2.2.2.2.2.1 ⟨ResponseState.kWaiting, "a", emptyCmdResponse⟩ rfl
  simpa using h7

theorem parse_event_shape (jsonRead : String → Option Json) (message : String)
    (eid : Int) (kvs : JsonDict) (mth : String)
    (hread : jsonRead message = some (Json.dict kvs))
    (hid : jsonFind kvs "id" = none)
    (hm : findString kvs "method" = some mth) :
    ParseInspectorMessage jsonRead message eid = none
    ∨ ∃ p, ParseInspectorMessage jsonRead message eid
        = some (ParsedMessage.event ((findString kvs "sessionId").getD "") ⟨mth, p⟩) := by
  rcases hpar : findDict kvs "params" with _ | params
  · exact Or.inr ⟨JsonDict.nil, by simp [ParseInspectorMessage, hread, hid, hm, hpar]⟩
  · by_cases hbid : mth = "Runtime.bindingCalled"
    · subst hbid
      rcases hname : findString params "name" with _ | nm
      · exact Or.inl (by simp [ParseInspectorMessage, hread, hid, hm, hpar, hname])
      · by_cases hnm : nm = "sendBidiResponse"
        · subst hnm
          rcases hpl : findString params "payload" with _ | payloadStr
          · exact Or.inl
              (by simp [ParseInspectorMessage, hread, hid, hm, hpar, hname, hpl])
          · rcases hp : jsonRead payloadStr with _ | j
            · exact Or.inl
                (by simp [ParseInspectorMessage, hread, hid, hm, hpar, hname, hpl, hp])
            · cases j with
              | dict payload =>
                refine Or.inr ⟨dictSet params "payload"
                  (Json.dict (match findInt payload "id" with
                    | some cmdId =>
                        dictSet payload "id" (Json.num (Int.tdiv cmdId kMaxChannelCount))
                    | none => payload)), ?_⟩
                simp [ParseInspectorMessage, hread, hid, hm, hpar, hname, hpl, hp]
              | null =>
                exact Or.inl
                  (by simp [ParseInspectorMessage, hread, hid, hm, hpar, hname, hpl, hp])
              | bool b =>
                exact Or.inl
                  (by simp [ParseInspectorMessage, hread, hid, hm, hpar, hname, hpl, hp])
              | num n2 =>
                exact Or.inl
                  (by simp [ParseInspectorMessage, hread, hid, hm, hpar, hname, hpl, hp])
              | str s2 =>
                exact Or.inl
                  (by simp [ParseInspectorMessage, hread, hid, hm, hpar, hname, hpl, hp])
              | arr xs =>
                exact Or.inl
                  (by simp [ParseInspectorMessage, hread, hid, hm, hpar, hname, hpl, hp])
        · exact Or.inr ⟨params,
            by simp [ParseInspectorMessage, hread, hid, hm, hpar, hname, hnm]⟩
    · exact Or.inr ⟨params,
        by simp [ParseInspectorMessage, hread, hid, hm, hpar, hbid]⟩

/-- C6: an inbound frame that parses as a JSON object is a CommandResponse
when it has an integer "id" (result from the "result" object when present,
else the "error" sub-object serialized to a JSON string when present, else a
synthesized empty result object); without an "id" it can only be an Event
whose method is the frame's string "method" field — a missing method fails
the parse — and with params defaulting to an empty object when absent. -/
theorem claim_C6 (jsonRead : String → Option Json) (message : String) (eid : Int)
    (kvs : JsonDict) (hread : jsonRead message = some (Json.dict kvs)) :
    (∀ n r, jsonFind kvs "id" = some (Json.num n) → findDict kvs "result" = some r →
        ParseInspectorMessage jsonRead message eid
          = some (ParsedMessage.response ((findString kvs "sessionId").getD "")
              ⟨n, some r, ""⟩))
    ∧ (∀ n e, jsonFind kvs "id" = some (Json.num n) → findDict kvs "result" = none →
        findDict kvs "error" = some e →
        ParseInspectorMessage jsonRead message eid
          = some (ParsedMessage.response ((findString kvs "sessionId").getD "")
              ⟨n, none, Json.write (Json.dict e)⟩))
    ∧ (∀ n, jsonFind kvs "id" = some (Json.num n) → findDict kvs "result" = none →
        findDict kvs "error" = none →
        ParseInspectorMessage jsonRead message eid
          = some (ParsedMessage.response ((findString kvs "sessionId").getD "")
              ⟨n, some JsonDict.nil, ""⟩))
    ∧ (jsonFind kvs "id" = none → findString kvs "method" = none →
        ParseInspectorMessage jsonRead message eid = none)
    ∧ (∀ sid ev, jsonFind kvs "id" = none →
        ParseInspectorMessage jsonRead message eid = some (ParsedMessage.event sid ev) →
        findString kvs "method" = some ev.method)
    ∧ (∀ mth, jsonFind kvs "id" = none → findString kvs "method" = some mth →
        findDict kvs "params" = none →
        ParseInspectorMessage jsonRead message eid
          = some (ParsedMessage.event ((findString kvs "sessionId").getD "")
              ⟨mth, JsonDict.nil⟩)) := by
  refine ⟨?_, ?_, ?_, ?_, ?_, ?_⟩
  · intro n r hid hres
    simp [ParseInspectorMessage, hread, hid, hres]
  · intro n e hid hres herr
    simp [ParseInspectorMessage, hread, hid, hres, herr]
  · intro n hid hres herr
    simp [ParseInspectorMessage, hread, hid, hres, herr]
  · intro hid hm
    simp [ParseInspectorMessage, hread, hid, hm]
  · intro sid ev hid hev
    rcases hm : findString kvs "method" with _ | mth
    · rw [ParseInspectorMessage] at hev
      simp [hread, hid, hm] at hev
    · rcases parse_event_shape jsonRead message eid kvs mth hread hid hm with h | ⟨p, h⟩
      · rw [h] at hev
        cases hev
      · rw [h] at hev
        injection hev with hev1
        injection hev1 with hs hv
        subst hv
        rfl
  · intro mth hid hm hpar
    simp [ParseInspectorMessage, hread, hid, hm, hpar]

theorem claim_C6_witness :
    ParseInspectorMessage jrRespFrame "frame6" (-1)
      = some (ParsedMessage.response "sess"
          ⟨5, some (JsonDict.cons "ok" (Json.bool true) JsonDict.nil), ""⟩) := by
  have h := (claim_C6 jrRespFrame "frame6" (-1) kvsRespFrame rfl).1 5
    (JsonDict.cons "ok" (Json.bool true) JsonDict.nil) rfl rfl
  exact h

/-- C7 (corrected): ParseInspectorError's code taxonomy matches the claimed
ordered table, with one amendment: the bare `code -32602 → InvalidArgument`
rule applies only when a string "message" is also present (with no message,
-32602 falls through to UnknownError). -/
theorem claim_C7_amended (jsonRead : String → Option Json) (errorJson : String) :
    (ParseInspectorError jsonRead errorJson).code
      = match jsonRead errorJson with
        | some (Json.dict kvs) =>
            specErrorCode (findInt kvs "code") (findString kvs "message")
        | _ => StatusCode.kUnknownError := by
  rcases hr : jsonRead errorJson with _ | j
  · simp [ParseInspectorError, hr]
  · cases j with
    | dict kvs =>
      simp only [ParseInspectorError, specErrorCode, hr, kCdpMethodNotFoundCode,
        kSessionNotFoundInspectorCode, kInvalidParamsInspectorCode,
        kInspectorDefaultContextError, kInspectorContextError, kInspectorInvalidURL,
        kInspectorInsecureContext, kInspectorOpaqueOrigins,
        kInspectorPushPermissionError, kInspectorNoSuchFrameError,
        kNoTargetWithGivenIdError]
      rcases hm : findString kvs "message" with _ | msg
      · by_cases c1 : findInt kvs "code" = some (-32601)
        · simp [hm, c1, apply_ite Status.code]
        · by_cases c2 : findInt kvs "code" = some (-32001)
          · simp [hm, c1, c2, apply_ite Status.code]
          · simp [hm, c1, c2, apply_ite Status.code]
      · by_cases c1 : findInt kvs "code" = some (-32601)
        · simp [hm, c1, apply_ite Status.code]
        · by_cases c2 : findInt kvs "code" = some (-32001)
          · simp [hm, c1, c2, apply_ite Status.code]
          · by_cases m1 : msg = "Cannot find default execution context"
            · subst m1; simp [hm, c1, c2, apply_ite Status.code]
            · by_cases m2 : msg = "Cannot find context with specified id"
              · subst m2; simp [hm, c1, c2, apply_ite Status.code]
              · by_cases m3 : msg = "Cannot navigate to invalid URL"
                · subst m3; simp [hm, c1, c2, apply_ite Status.code]
                · by_cases m4 : msg = "Permission can't be granted in current context."
                  · subst m4; simp [hm, c1, c2, apply_ite Status.code]
                  · by_cases m5 :
                      msg = "Push Permission without userVisibleOnly:true isn't supported"
                    · subst m5; simp [hm, c1, c2, apply_ite Status.code]
                    · by_cases m6 : msg = "Permission can't be granted to opaque origins."
                      · subst m6; simp [hm, c1, c2, apply_ite Status.code]
                      · by_cases m7 : msg = "Frame with the given id was not found."
                        · subst m7; simp [hm, c1, c2, apply_ite Status.code]
                        · by_cases c3 : findInt kvs "code" = some (-32602)
                          · by_cases m8 : msg = "No target with given id found"
                            · subst m8; simp [hm, c1, c2, c3, apply_ite Status.code]
                            · simp [hm, c1, c2, c3, m1, m2, m3, m4, m5, m6, m7, m8,
                                apply_ite Status.code]
                          · simp [hm, c1, c2, c3, m1, m2, m3, m4, m5, m6, m7,
                              apply_ite Status.code]
    | null => simp [ParseInspectorError, hr]
    | bool b => simp [ParseInspectorError, hr]
    | num n => simp [ParseInspectorError, hr]
    | str s => simp [ParseInspectorError, hr]
    | arr xs => simp [ParseInspectorError, hr]

/-- C7 counterexample: an inspector error with code -32602 and no message
maps to kUnknownError, while the claim as stated requires kInvalidArgument
whenever the code is -32602. -/
theorem claim_C7_counterexample :
    (ParseInspectorError jrBareInvalidParams errJsonBareInvalidParams).code
        = StatusCode.kUnknownError
    ∧ findInt dictBareInvalidParams "code" = some (-32602)
    ∧ findString dictBareInvalidParams "message" = none
    ∧ StatusCode.kUnknownError ≠ StatusCode.kInvalidArgument := by
  exact ⟨rfl, rfl, rfl, by decide⟩

theorem jsonFind_dictSet : ∀ (d : JsonDict) (k : String) (v : Json),
    jsonFind (dictSet d k v) k = some v
  | JsonDict.nil, k, v => by simp [dictSet, jsonFind]
  | JsonDict.cons k2 v2 tl, k, v => by
    by_cases h : k2 = k
    · subst h
      simp [dictSet, jsonFind]
    · simp [dictSet, jsonFind, h, jsonFind_dictSet tl k v]

theorem tdiv_mul_two_add (u c : Int) (hu : 0 ≤ u) (hc0 : 0 ≤ c) (hc2 : c < 2) :
    Int.tdiv (u * 2 + c) 2 = u := by
  obtain ⟨a, rfl⟩ := Int.eq_ofNat_of_zero_le hu
  obtain ⟨b, rfl⟩ := Int.eq_ofNat_of_zero_le hc0
  have hb : b < 2 := by exact_mod_cast hc2
  have h1 : ((a : Int) * 2 + b) = ((a * 2 + b : Nat) : Int) := by push_cast; ring
  rw [h1]
  have h2 : Int.tdiv ((a * 2 + b : Nat) : Int) (2 : Int) = (((a * 2 + b) / 2 : Nat) : Int) :=
    rfl
  rw [h2]
  have h3 : (a * 2 + b) / 2 = a := by omega
  rw [h3]

theorem wrap32_eq_self (n : Int) (h1 : -2147483648 ≤ n) (h2 : n < 2147483648) :
    wrap32 n = n := by
  unfold wrap32
  have h3 : (n + 2147483648) % 4294967296 = n + 2147483648 :=
    Int.emod_eq_of_lt (by omega) (by omega)
  omega

/-- C9 (corrected): for user-supplied BiDi command ids u with
0 ≤ u < 2^30 (so that the 32-bit computation u * kMaxChannelCount + c cannot
overflow) and a channel 0 ≤ c < kMaxChannelCount, posting puts id
u * kMaxChannelCount + c into the tunneled command, and the inbound codec
divides the payload id by kMaxChannelCount (truncating), restoring u before
delivery. (For negative u with c > 0 the truncating division does not
restore u, and for u ≥ 2^30 the 32-bit multiply-add wraps; see the
counterexample.) -/
theorem claim_C9_amended (u c : Int) (command : JsonDict)
    (hu : 0 ≤ u) (hu30 : u < 1073741824) (hc0 : 0 ≤ c) (hc : c < kMaxChannelCount)
    (hid : findInt command "id" = some u) :
    (∃ expr, PostBidiCommandInternal c command
        = Except.ok (expr, dictSet command "id" (Json.num (u * kMaxChannelCount + c))))
    ∧ findInt (dictSet command "id" (Json.num (u * kMaxChannelCount + c))) "id"
        = some (u * kMaxChannelCount + c)
    ∧ Int.tdiv (u * kMaxChannelCount + c) kMaxChannelCount = u
    ∧ (∀ (jsonRead : String → Option Json) (message payloadStr : String) (eid : Int)
        (frame params payload : JsonDict),
        jsonRead message = some (Json.dict frame) →
        jsonFind frame "id" = none →
        findString frame "method" = some "Runtime.bindingCalled" →
        findDict frame "params" = some params →
        findString params "name" = some "sendBidiResponse" →
        findString params "payload" = some payloadStr →
        jsonRead payloadStr = some (Json.dict payload) →
        findInt payload "id" = some (u * kMaxChannelCount + c) →
        ParseInspectorMessage jsonRead message eid
          = some (ParsedMessage.event ((findString frame "sessionId").getD "")
              ⟨"Runtime.bindingCalled",
                dictSet params "payload"
                  (Json.dict (dictSet payload "id" (Json.num u)))⟩)) := by
  have hmax : kMaxChannelCount = 2 := by
    norm_num [kMaxChannelCount, kReservedChannelCount, kUserChannelCount]
  have hc2 : c < 2 := by rw [hmax] at hc; exact hc
  have htdiv : Int.tdiv (u * kMaxChannelCount + c) kMaxChannelCount = u := by
    rw [hmax]
    exact tdiv_mul_two_add u c hu hc0 hc2
  have hw : wrap32 (u * kMaxChannelCount + c) = u * kMaxChannelCount + c := by
    rw [hmax]
    exact wrap32_eq_self _ (by omega) (by omega)
  have hrange : ¬(c < 0 ∨ kMaxChannelCount ≤ c) := by
    rw [hmax]
    omega
  refine ⟨?_, ?_, htdiv, ?_⟩
  · refine ⟨"onBidiMessage(" ++ Json.write (Json.str (Json.write (Json.dict
      (dictSet command "id" (Json.num (u * kMaxChannelCount + c)))))) ++ ")", ?_⟩
    simp [PostBidiCommandInternal, hid, hrange, hw]
  · simp [findInt, jsonFind_dictSet]
  · intro jsonRead message payloadStr eid frame params payload hread hid2 hm hpar hname
      hpl hp hpid
    simp [ParseInspectorMessage, hread, hid2, hm, hpar, hname, hpl, hp, hpid, htdiv]

theorem claim_C9_witness :
    (∃ expr, PostBidiCommandInternal 1 cmdUser5
        = Except.ok (expr, dictSet cmdUser5 "id" (Json.num 11)))
    ∧ Int.tdiv 11 kMaxChannelCount = 5
    ∧ ParseInspectorMessage jrBidi11 "bidiframe11" (-1)
        = some (ParsedMessage.event ""
            ⟨"Runtime.bindingCalled",
              dictSet paramsBidi11 "payload"
                (Json.dict (dictSet payloadWire11 "id" (Json.num 5)))⟩) := by
  have h := claim_C9_amended 5 1 cmdUser5 (by decide) (by decide) (by decide) (by decide)
    rfl
  obtain ⟨⟨expr, hout⟩, hfind, hdiv, hin⟩ := h
  have h11 : (5 * kMaxChannelCount + 1 : Int) = 11 := by decide
  refine ⟨⟨expr, ?_⟩, ?_, ?_⟩
  · rw [hout, h11]
  · rw [← h11]
    exact hdiv
  · have := hin jrBidi11 "bidiframe11" "payload11" (-1) frameBidi11 paramsBidi11
      payloadWire11 rfl rfl rfl rfl rfl rfl rfl (by rw [h11]; rfl)
    simpa using this

/-- C9 counterexample: the round-trip fails outside 0 ≤ u < 2^30. Posting the
negative user id -3 on channel 1 puts -5 = -3 * 2 + 1 on the wire, but the
inbound truncating division restores -2, not -3. Posting user id 2^30 =
1073741824 overflows the 32-bit multiply-add: the wire id is -2147483647
(not 2^31 + 1), and the inbound division restores -1073741823, not 2^30. -/
theorem claim_C9_counterexample :
    (∃ expr, PostBidiCommandInternal 1 cmdUserNeg3
        = Except.ok (expr, dictSet cmdUserNeg3 "id" (Json.num (-5))))
    ∧ ((-5 : Int) = -3 * kMaxChannelCount + 1)
    ∧ ParseInspectorMessage jrBidiNeg5 "bidiframeNeg5" (-1)
        = some (ParsedMessage.event ""
            ⟨"Runtime.bindingCalled",
              dictSet paramsBidiNeg5 "payload"
                (Json.dict (dictSet payloadWireNeg5 "id" (Json.num (-2))))⟩)
    ∧ (Int.tdiv (-5) kMaxChannelCount = -2)
    ∧ ((-2 : Int) ≠ -3)
    ∧ (∃ expr, PostBidiCommandInternal 1 cmdUserPow30
        = Except.ok (expr, dictSet cmdUserPow30 "id" (Json.num (-2147483647))))
    ∧ ((-2147483647 : Int) ≠ 1073741824 * kMaxChannelCount + 1)
    ∧ (Int.tdiv (-2147483647) kMaxChannelCount = -1073741823)
    ∧ ((-1073741823 : Int) ≠ 1073741824) := by
  exact ⟨⟨_, rfl⟩, by decide, rfl, by decide, by decide, ⟨_, rfl⟩, by decide, by decide,
    by decide⟩

end DevToolsModel

